import Mathlib

/-
  Verification of the fiber_lib specification against its source.

  Shallow embedding of the parts of the runtime the claims speak about:
  the fiber state machine (src/fiber.cpp), the consumer loop
  (src/fiber_consumer.cpp), the I/O retry loop's timeout handling
  (src/io_fiber.cpp), the condition variable's timed wait (src/sync.cpp),
  scheduling placement (src/scheduler.cpp and the spec§4.F),
  the timer wheel (src/timer.cpp), the tagged-pointer lock-free structures
  (src/include/lockfree/*.h), stack preparation (src/context.cpp) and the
  channel ring buffer (src/include/channel.h).
-/

namespace FiberLib

/-- Fiber states, from src/fiber.cpp (the implementation uses READY, RUNNING,
SUSPENDED, BLOCKED and DONE). -/
inductive FiberState
  | READY
  | RUNNING
  | SUSPENDED
  | BLOCKED
  | DONE
deriving DecidableEq, Repr

/-- The per-fiber data the claims touch: `state_`, `parent_fiber_` and
`consumer_id_` of class Fiber (src/fiber.cpp).  Fibers are identified by
their id (a natural number); a parent of `none` models a null
`parent_fiber_`. -/
structure FiberRec where
  state : FiberState
  parent : Option Nat
  consumerId : Option Nat
deriving DecidableEq, Repr

/-- Pointwise update of a fiber table. -/
def updF (f : Nat → FiberRec) (i : Nat) (r : FiberRec) : Nat → FiberRec :=
  fun j => if j = i then r else f j

/-- The thread-local world of src/fiber.cpp: the table of fibers, the
thread-local `current_fiber_` pointer, the id of the lazily created main
fiber of this thread, and the context last switched into by
`context_->switchTo` (recording where execution went). -/
structure ThreadWorld where
  fibers : Nat → FiberRec
  current : Option Nat
  mainId : Nat
  switchedTo : Option Nat

/-- Embedding of `Fiber::yield_internal(Fiber*)` (src/fiber.cpp lines
97-112): read the current fiber's parent, clear the parent field, make the
parent the thread-local current fiber, set the parent's state to RUNNING
and switch into the parent's context.  A null parent dereferences null
(`parent_fiber->state_ = RUNNING`), modelled as `none`. -/
def yield_internal (w : ThreadWorld) (cid : Nat) : Option ThreadWorld :=
  match (w.fibers cid).parent with
  | none => none
  | some pid =>
      let f1 := updF w.fibers cid { w.fibers cid with parent := none }
      let f2 := updF f1 pid { f1 pid with state := FiberState.RUNNING }
      some { fibers := f2, current := some pid, mainId := w.mainId, switchedTo := some pid }

/-- Embedding of `Fiber::yield()` (src/fiber.cpp lines 72-82): the current
fiber must be non-null (assert, modelled as `none`); its state is set to
SUSPENDED only when it is not DONE; then `yield_internal`. -/
def Fiber.yield (w : ThreadWorld) : Option ThreadWorld :=
  match w.current with
  | none => none
  | some cid =>
      let w1 :=
        if (w.fibers cid).state = FiberState.DONE then w
        else { w with fibers := updF w.fibers cid { w.fibers cid with state := FiberState.SUSPENDED } }
      yield_internal w1 cid

/-- Embedding of `Fiber::block_yield()` (src/fiber.cpp lines 84-95):
identical to yield except the target state is BLOCKED. -/
def Fiber.block_yield (w : ThreadWorld) : Option ThreadWorld :=
  match w.current with
  | none => none
  | some cid =>
      let w1 :=
        if (w.fibers cid).state = FiberState.DONE then w
        else { w with fibers := updF w.fibers cid { w.fibers cid with state := FiberState.BLOCKED } }
      yield_internal w1 cid

/-- Embedding of `Fiber::resume()` (src/fiber.cpp lines 49-70).  On a DONE
fiber it logs a warning (the Bool result) and returns with the world
unchanged.  Otherwise: the caller (the current fiber, or the lazily built
main fiber when current is null) is recorded as the resumed fiber's
parent, the thread-local current becomes the resumed fiber, its state is
set to RUNNING, and execution switches into its context. -/
def Fiber.resume (w : ThreadWorld) (fid : Nat) : ThreadWorld × Bool :=
  if (w.fibers fid).state = FiberState.DONE then
    (w, true)
  else
    let cur := match w.current with
      | some c => c
      | none => w.mainId
    let f1 := updF w.fibers fid { w.fibers fid with parent := some cur }
    let f2 := updF f1 fid { f1 fid with state := FiberState.RUNNING }
    ({ fibers := f2, current := some fid, mainId := w.mainId, switchedTo := some fid }, false)

/-- Embedding of `FiberConsumer::processTask()` (src/fiber_consumer.cpp
lines 88-126) acting on this consumer's local run queue.  The fiber's
execution between the switch into it (`task->resume()`) and its yield
back is arbitrary user code; it is abstracted by `resumeRun`, the effect
of the resume call on the popped fiber's record.  An empty queue makes the
thread yield and return.  A popped fiber carrying a consumer id different
from this consumer trips the `assert` (modelled as `none`).  Otherwise the
consumer sets the fiber's consumer id to itself, resumes it, and pushes
it back onto the local queue exactly when its state on return is
SUSPENDED. -/
def processTask (myId : Nat) (resumeRun : FiberRec → FiberRec)
    (q : List FiberRec) : Option (List FiberRec) :=
  match q with
  | [] => some []
  | task :: rest =>
      match task.consumerId with
      | some c =>
          if c = myId then
            let task1 := resumeRun { task with consumerId := some myId }
            if task1.state = FiberState.SUSPENDED then some (rest ++ [task1]) else some rest
          else none
      | none =>
          let task1 := resumeRun { task with consumerId := some myId }
          if task1.state = FiberState.SUSPENDED then some (rest ++ [task1]) else some rest

/-- Decision of the I/O retry loop `IO::doIO` (src/io_fiber.cpp lines
38-50) whether to arm the one-shot timeout timer for a given
`timeout_ms` argument: the source guards the `addTimer` call with
`if (timeout_ms > 0)`. -/
def armsTimerFor (timeout_ms : Int) : Bool := timeout_ms > 0

/-- The pair of shared atomic flags of one `IO::doIO` call
(src/io_fiber.cpp lines 35-36): `timeout_state` and the wake-once flag
`woken_state`. -/
structure IOWakeState where
  timeout_state : Bool
  woken_state : Bool
deriving DecidableEq, Repr

/-- Embedding of the timer callback armed by `IO::doIO` (src/io_fiber.cpp
lines 43-48): store true into `timeout_state`, then exchange
`woken_state` to true; the fd is woken on the event (`wakeUp`) exactly
when the exchange returned false, i.e. the callback won the wake-once
race.  The Bool in the result records whether `wakeUp(fd, event)` was
called. -/
def ioTimerCallback (s : IOWakeState) : IOWakeState × Bool :=
  let s1 : IOWakeState := { s with timeout_state := true }
  let prev := s1.woken_state
  let s2 : IOWakeState := { s1 with woken_state := true }
  (s2, !prev)

/-- Which wake popped the timed waiter of `FiberCondition::wait_for` from
this condition's wait queue: a `notify_one`/`notify_all` call, or the
`notify_one` issued by the armed timer's callback (src/sync.cpp lines
186-197). -/
inductive WakeSource
  | notify
  | timerWake
deriving DecidableEq, Repr

/-- Progress of the wait_for timer callback (src/sync.cpp lines 188-197)
at some instant of an interleaving: it has not run, it has stored true
into `timeout_state` but not yet exchanged `notified_state`, or it has
completed its exchange (and, when it won, its `notify_one`). -/
inductive TimerProgress
  | notFired
  | storedTimeout
  | completed
deriving DecidableEq, Repr

/-- Order on callback progress: the callback only moves forward. -/
def progLe : TimerProgress → TimerProgress → Bool
  | TimerProgress.notFired, _ => true
  | TimerProgress.storedTimeout, TimerProgress.notFired => false
  | TimerProgress.storedTimeout, _ => true
  | TimerProgress.completed, TimerProgress.completed => true
  | TimerProgress.completed, _ => false

/-- Embedding of `FiberCondition::wait_for` (src/sync.cpp lines 160-218)
as a function of the interleaving of one run: `ms` is the timeout cast to
milliseconds; `src` is the wake that popped this waiter from the wait
queue; `p1` is the timer callback's progress at the instant the woken
waiter performs `notified_state->exchange(true)`; `p2` is its progress at
the instant the waiter loads `timeout_state`.  A legal interleaving has
`progLe p1 p2`, and `src = timerWake` requires `p1 = completed` (the
timer wakes only after storing its flag and winning the exchange).  For
`ms ≤ 0` the source returns false immediately, arming nothing.  Otherwise
the waiter computes `was_notified` from the exchange (cancelling the
timer when it won — the second component) and returns the negation of
`timed_out` where `timed_out` is the loaded `timeout_state`. -/
def wait_for_run (ms : Int) (_src : WakeSource) (p1 p2 : TimerProgress) :
    Bool × Bool :=
  if ms ≤ 0 then (false, false)
  else
    let notified_before := p1 = TimerProgress.completed
    let was_notified := !notified_before
    let timed_out := p2 ≠ TimerProgress.notFired
    (!timed_out, was_notified)

/-- One worker consumer as seen by the scheduler: its id, the approximate
size its queue reports (`getQueueSize`), its local queue and its running
flag (src/fiber_consumer.cpp). -/
structure ConsumerModel where
  id : Nat
  queueSize : Nat
  queue : List FiberRec
  running : Bool
deriving DecidableEq, Repr

/-- Scan loop of `Scheduler::selectConsumer` (src/scheduler.cpp lines
189-207): keep the consumer with the smallest reported queue size, the
first one winning ties. -/
def selectLoop (best : ConsumerModel) (minSize : Nat) :
    List ConsumerModel → ConsumerModel
  | [] => best
  | c :: rest =>
      if c.queueSize < minSize then selectLoop c c.queueSize rest
      else selectLoop best minSize rest

/-- Embedding of `Scheduler::selectConsumer` (src/scheduler.cpp lines
189-207): none when there are no consumers, else the shortest-queue
consumer. -/
def selectConsumer (cs : List ConsumerModel) : Option ConsumerModel :=
  match cs with
  | [] => none
  | c0 :: _ => some (selectLoop c0 c0.queueSize cs)

/-- Modelled from the spec: the two-argument
`Scheduler::scheduleImmediate(fiber, consumer_hint)` that src/fiber.cpp
calls (`scheduler.scheduleImmediate(fiber, current->GetConsumerId().value_or(-1))`)
is not present in src/scheduler.cpp, which holds an older one-argument
version; its placement policy is taken from spec §4.F: 1. if the fiber
has a consumer-id, route there; 2. else if the spawn caller's hint names
a consumer (hint ≥ 0), use that; 3. else shortest-queue-wins via
`selectConsumer`.  The result is the id of the consumer the fiber is
enqueued onto. -/
def scheduleImmediate (cs : List ConsumerModel) (fiber : FiberRec)
    (hint : Int) : Option Nat :=
  match fiber.consumerId with
  | some cid => some cid
  | none =>
      if 0 ≤ hint then some hint.toNat
      else (selectConsumer cs).map (fun c => c.id)

/-- Embedding of `FiberConsumer::schedule` (src/fiber_consumer.cpp lines
46-61): a stopped consumer warns and drops the fiber; a fiber carrying a
consumer id different from this consumer trips the
`assert(... == id() && "Fiber scheduled across thread!")`, modelled as
`none`; otherwise the fiber is pushed onto this consumer's local queue. -/
def consumerSchedule (c : ConsumerModel) (fiber : FiberRec) :
    Option ConsumerModel :=
  if !c.running then some c
  else
    match fiber.consumerId with
    | some cid =>
        if cid = c.id then some { c with queue := c.queue ++ [fiber] }
        else none
    | none => some { c with queue := c.queue ++ [fiber] }

/-- Timer node fields the claims touch (src/include/timer.h): the stored
timeout in ms, the remaining rotations and the cancelled flag. -/
structure TimerNodeM where
  timeout : Nat
  rotations : Nat
  canceled : Bool
deriving DecidableEq, Repr

/-- The timer wheel state (src/timer.cpp): slot count `slots_`, tick
interval in ms, the wheel (slot index to its list of timers), the current
slot, the pending-additions queue (a queue of TimerPtr, so an entry may
be null) and the running flag. -/
structure WheelM where
  slots : Nat
  tickInterval : Nat
  wheel : Nat → List TimerNodeM
  currentSlot : Nat
  pending : List (Option TimerNodeM)
  running : Bool

/-- Embedding of `TimerWheel::addTimer(ms, cb, repeat)` (src/timer.cpp
lines 47-77): when stopped return null; otherwise build the node, compute
`ticks = ms / tick_interval` bumped to at least 1, set the node's
rotations to `ticks / slots_` (the target slot is computed here but not
used until the drain), and stage the node on the pending queue.  The spin
on a full pending queue eventually pushes while running, so the push is
modelled as an append. -/
def addTimer (w : WheelM) (ms : Nat) : WheelM × Option TimerNodeM :=
  if !w.running then (w, none)
  else
    let ticks0 := ms / w.tickInterval
    let ticks := if ticks0 = 0 then 1 else ticks0
    let timer : TimerNodeM :=
      { timeout := ms, rotations := ticks / w.slots, canceled := false }
    ({ w with pending := w.pending ++ [some timer] }, some timer)

/-- Insertion of one drained pending timer into its wheel slot, the body
of the drain loop of `TimerWheel::processPendingTimers` (src/timer.cpp
lines 213-222): recompute `ticks` from the node's stored timeout, target
slot `(current_slot + ticks) % slots_`, rotations `ticks / slots_`, and
push the node onto that slot's list. -/
def insertPending (w : WheelM) (t : TimerNodeM) : WheelM :=
  let ticks0 := t.timeout / w.tickInterval
  let ticks := if ticks0 = 0 then 1 else ticks0
  let target := (w.currentSlot + ticks) % w.slots
  let t1 : TimerNodeM := { t with rotations := ticks / w.slots }
  { w with wheel := fun s => if s = target then w.wheel s ++ [t1] else w.wheel s }

/-- Drain loop of `TimerWheel::processPendingTimers` (src/timer.cpp lines
202-224) with an explicit remaining budget: while the budget lasts and
the pending queue pops, a null or cancelled node is skipped (still
counting toward the budget), otherwise it is inserted into its slot. -/
def drainPending : Nat → WheelM → WheelM
  | 0, w => w
  | fuel + 1, w =>
      match w.pending with
      | [] => w
      | t? :: rest =>
          let w1 := { w with pending := rest }
          match t? with
          | none => drainPending fuel w1
          | some t =>
              if t.canceled then drainPending fuel w1
              else drainPending fuel (insertPending w1 t)

/-- Embedding of `TimerWheel::processPendingTimers` (src/timer.cpp lines
202-224): drain at most `max_batch = 100` pending additions. -/
def processPendingTimers (w : WheelM) : WheelM := drainPending 100 w

/-- A 48-bit-pointer / 16-bit-tag word (src/include/lockfree/tagged_node_ptr.h).
The pointer is a node id, `none` for null; the tag is the uint16 ABA
counter. -/
structure TPtr where
  ptr : Option Nat
  tag : Nat
deriving DecidableEq, Repr

/-- Embedding of `TaggedPtr::get_next_tag` (src/include/lockfree/tagged_node_ptr.h
lines 78-81): `(get_tag() + 1u) & max_uint16`, the successor of the tag
modulo 2^16. -/
def TPtr.get_next_tag (p : TPtr) : Nat := (p.tag + 1) % 65536

/-- CAS site 1, `push_back_lockfree` helping advance a lagging tail
(src/include/lockfree/lockfree_linked_list.h line 112):
`TaggedNodePtr new_tail{next_ptr, tail.get_next_tag()}` installed with
expected value `tail`. -/
def push_helpAdvanceTail (tail : TPtr) (next_ptr : Option Nat) : TPtr :=
  { ptr := next_ptr, tag := tail.get_next_tag }

/-- CAS site 2, `push_back_lockfree` linking the new node
(src/include/lockfree/lockfree_linked_list.h line 117):
`TaggedNodePtr new_tail_next{new_node, next.get_next_tag()}` installed on
`tail_ptr->next` with expected value `next`. -/
def push_linkNewNode (next : TPtr) (new_node : Nat) : TPtr :=
  { ptr := some new_node, tag := next.get_next_tag }

/-- CAS site 3, `push_back_lockfree` swinging the global tail to the new
node (src/include/lockfree/lockfree_linked_list.h line 124):
`TaggedNodePtr new_tail{new_node, tail.get_next_tag()}` with expected
value `tail`. -/
def push_swingTail (tail : TPtr) (new_node : Nat) : TPtr :=
  { ptr := some new_node, tag := tail.get_next_tag }

/-- CAS site 4, `pop_front_lockfree` helping advance a lagging tail
(src/include/lockfree/lockfree_linked_list.h line 155):
`TaggedNodePtr new_tail{next_ptr, tail.get_next_tag()}` with expected
value `tail`. -/
def pop_helpAdvanceTail (tail : TPtr) (next_ptr : Option Nat) : TPtr :=
  { ptr := next_ptr, tag := tail.get_next_tag }

/-- CAS site 5, `pop_front_lockfree` advancing the head
(src/include/lockfree/lockfree_linked_list.h line 160):
`TaggedNodePtr new_head{next_ptr, head.get_next_tag()}` with expected
value `head`. -/
def pop_advanceHead (head : TPtr) (next_ptr : Option Nat) : TPtr :=
  { ptr := next_ptr, tag := head.get_next_tag }

/-- CAS site 6, the free list's `allocate_impl`
(src/include/lockfree/freelist.h line 144):
`TaggedHandlePtr new_pool(new_pool_ptr, old_pool.get_next_tag())` with
expected value `old_pool`. -/
def freelist_allocate_newPool (old_pool : TPtr) (new_pool_ptr : Option Nat) : TPtr :=
  { ptr := new_pool_ptr, tag := old_pool.get_next_tag }

/-- CAS site 7, the free list's `deallocate_impl`
(src/include/lockfree/freelist.h line 190):
`TaggedHandlePtr new_pool(new_pool_ptr, old_pool.get_tag())` — the tag of
the observed pool head, unchanged — installed with expected value
`old_pool`. -/
def freelist_deallocate_newPool (old_pool : TPtr) (node : Nat) : TPtr :=
  { ptr := some node, tag := old_pool.tag }

/-- How a stack region was obtained. -/
inductive AllocKind
  | mmapAnonymous
  | mallocHeap
deriving DecidableEq, Repr

/-- Descriptor of the stack region a context initialization prepares: the
allocation kind, the total mapped or allocated bytes, the bytes of
inaccessible (PROT_NONE) guard below the usable region, the offset of the
usable region from the base and its size. -/
structure StackPrep where
  kind : AllocKind
  totalSize : Nat
  guardBytes : Nat
  usableOff : Nat
  usableSize : Nat
deriving DecidableEq, Repr

/-- Embedding of `UContext::align_to_page` (src/include/context.h lines
87-90): `(sz + page_size - 1) & ~(page_size - 1)`, which for the
power-of-two page size clears the low bits, i.e. subtracts the remainder
modulo the page size. -/
def align_to_page (page sz : Nat) : Nat :=
  (sz + page - 1) - (sz + page - 1) % page

/-- Embedding of the stack preparation done by the UContext constructor
plus `UContext::initialize` (src/context.cpp lines 14-22 and 41-70):
`stack_size_ = align_to_page(st_sz)`, `total_size_ = stack_size_ + page`;
`mmap` the whole region anonymously with PROT_NONE; `mprotect` the region
one page in, of `stack_size_` bytes, to read-write — leaving one
inaccessible page below the usable stack. -/
def uContextPrepareStack (page st_sz : Nat) : StackPrep :=
  let stack_size := align_to_page page st_sz
  { kind := AllocKind.mmapAnonymous
    totalSize := stack_size + page
    guardBytes := page
    usableOff := page
    usableSize := stack_size }

/-- Embedding of the stack preparation done by `AsmContext::initialize`
(src/context.cpp lines 203-232): `stack_ = std::malloc(stack_size_)`,
zeroed; the whole allocation is the usable stack, with no guard page. -/
def asmContextPrepareStack (stack_size : Nat) : StackPrep :=
  { kind := AllocKind.mallocHeap
    totalSize := stack_size
    guardBytes := 0
    usableOff := 0
    usableSize := stack_size }

/-- Stack preparation performed for a fiber by `Fiber::Init` (src/fiber.cpp
lines 25-41), which creates its context with
`AsmContext::createContext(stack_size)` and, for a non-main fiber, calls
its `initialize`. -/
def fiberInitStack (stack_size : Nat) : StackPrep :=
  asmContextPrepareStack stack_size

/-- The lock-free channel state over values of type Nat
(src/include/channel.h): internal ring capacity `capacity_`, the slot
array (a slot holds the allocated value pointer or null), head, tail and
the open/closed state. -/
structure ChannelM where
  internalCap : Nat
  buffer : Nat → Option Nat
  head : Nat
  tail : Nat
  closed : Bool

/-- Embedding of the Channel constructor (src/include/channel.h lines
75-81): `capacity_ = (capacity == 0 ? 2 : capacity + 1)`, empty slots,
head = tail = 0, open. -/
def channelMk (capacity : Nat) : ChannelM :=
  { internalCap := if capacity = 0 then 2 else capacity + 1
    buffer := fun _ => none
    head := 0
    tail := 0
    closed := false }

/-- Embedding of `Channel::next_index` (src/include/channel.h line 67). -/
def channelNextIndex (c : ChannelM) (i : Nat) : Nat := (i + 1) % c.internalCap

/-- Embedding of `Channel::capacity()` (src/include/channel.h lines
181-184): `capacity_ - 1`, the ring keeping one empty slot. -/
def channelCapacity (c : ChannelM) : Nat := c.internalCap - 1

/-- Embedding of `Channel::try_push_lockfree` (src/include/channel.h lines
211-234): full when the successor of tail equals head; otherwise CAS the
tail slot from null to the new value (failing if the slot is occupied)
and advance tail. -/
def try_push_lockfree (c : ChannelM) (v : Nat) : ChannelM × Bool :=
  let current_tail := c.tail
  let next_tail := channelNextIndex c current_tail
  if next_tail = c.head then (c, false)
  else
    match c.buffer current_tail with
    | none =>
        ({ c with
            buffer := fun i => if i = current_tail then some v else c.buffer i
            tail := next_tail }, true)
    | some _ => (c, false)

/-- Embedding of `Channel::try_send` (src/include/channel.h lines 140-151):
false on a closed channel; otherwise `try_push_lockfree`, notifying one
receive waiter on success (the notification does not change the ring
state). -/
def try_send (c : ChannelM) (v : Nat) : ChannelM × Bool :=
  if c.closed then (c, false)
  else try_push_lockfree c v

/-- Concrete two-fiber thread world: fiber 1 is RUNNING with parent 0 (the
main fiber), fiber 0 is the main fiber, current is fiber 1. -/
def c1World : ThreadWorld :=
  { fibers := fun i =>
      if i = 1 then { state := FiberState.RUNNING, parent := some 0, consumerId := none }
      else { state := FiberState.RUNNING, parent := none, consumerId := none }
    current := some 1
    mainId := 0
    switchedTo := some 1 }

/-- Concrete thread world whose fiber 2 is DONE. -/
def c3World : ThreadWorld :=
  { fibers := fun i =>
      if i = 2 then { state := FiberState.DONE, parent := none, consumerId := none }
      else { state := FiberState.RUNNING, parent := none, consumerId := none }
    current := some 0
    mainId := 0
    switchedTo := none }

/-- Concrete timer wheel with 8 slots, 100 ms ticks, one pending timer of
250 ms, empty slots. -/
def c7Wheel : WheelM :=
  { slots := 8
    tickInterval := 100
    wheel := fun _ => []
    currentSlot := 3
    pending := [some { timeout := 250, rotations := 0, canceled := false }]
    running := true }

/-- Shorthand for the claims about `max(1, ms / T)`. -/
def ticksOf (tickInterval ms : Nat) : Nat := max 1 (ms / tickInterval)

-- ===================================================================
-- Theorems
-- ===================================================================

lemma max1_eq (n : Nat) : max 1 n = if n = 0 then 1 else n := by
  rcases n with _ | m
  · simp
  · simp [Nat.max_eq_right (Nat.succ_le_succ (Nat.zero_le m))]

lemma insertPending_fields (w : WheelM) (t : TimerNodeM) :
    (insertPending w t).slots = w.slots ∧
    (insertPending w t).tickInterval = w.tickInterval ∧
    (insertPending w t).currentSlot = w.currentSlot ∧
    (insertPending w t).pending = w.pending := by
  simp [insertPending]

lemma drainPending_fields (fuel : Nat) (w : WheelM) :
    (drainPending fuel w).slots = w.slots ∧
    (drainPending fuel w).tickInterval = w.tickInterval ∧
    (drainPending fuel w).currentSlot = w.currentSlot := by
  induction fuel generalizing w with
  | zero => simp [drainPending]
  | succ n ih =>
      rcases hp : w.pending with _ | ⟨t?, rest⟩
      · simp [drainPending, hp]
      · rcases t? with _ | t
        · simpa [drainPending, hp] using ih { w with pending := rest }
        · by_cases hc : t.canceled
          · simpa [drainPending, hp, hc] using ih { w with pending := rest }
          · have := ih (insertPending { w with pending := rest } t)
            simpa [drainPending, hp, hc, insertPending] using this

lemma drainPending_pending (fuel : Nat) (w : WheelM) :
    (drainPending fuel w).pending = w.pending.drop fuel := by
  induction fuel generalizing w with
  | zero => simp [drainPending]
  | succ n ih =>
      rcases hp : w.pending with _ | ⟨t?, rest⟩
      · simp [drainPending, hp]
      · rcases t? with _ | t
        · simpa [drainPending, hp] using ih { w with pending := rest }
        · by_cases hc : t.canceled
          · simpa [drainPending, hp, hc] using ih { w with pending := rest }
          · have := ih (insertPending { w with pending := rest } t)
            simpa [drainPending, hp, hc, insertPending] using this

lemma insertPending_wheel_mono (w : WheelM) (t x : TimerNodeM) (s : Nat)
    (hx : x ∈ w.wheel s) : x ∈ (insertPending w t).wheel s := by
  simp only [insertPending]
  split <;> split
  · exact List.mem_append_left _ hx
  · exact hx
  · exact List.mem_append_left _ hx
  · exact hx

lemma drainPending_wheel_mono (fuel : Nat) (w : WheelM) (x : TimerNodeM)
    (s : Nat) (hx : x ∈ w.wheel s) : x ∈ (drainPending fuel w).wheel s := by
  induction fuel generalizing w with
  | zero => simpa [drainPending] using hx
  | succ n ih =>
      rcases hp : w.pending with _ | ⟨t?, rest⟩
      · simpa [drainPending, hp] using hx
      · rcases t? with _ | t
        · have hstep : drainPending (n + 1) w =
              drainPending n { w with pending := rest } := by
            simp [drainPending, hp]
          rw [hstep]
          exact ih { w with pending := rest } hx
        · by_cases hc : t.canceled
          · have hstep : drainPending (n + 1) w =
                drainPending n { w with pending := rest } := by
              simp [drainPending, hp, hc]
            rw [hstep]
            exact ih { w with pending := rest } hx
          · have hstep : drainPending (n + 1) w =
                drainPending n (insertPending { w with pending := rest } t) := by
              simp [drainPending, hp, hc]
            rw [hstep]
            exact ih _ (insertPending_wheel_mono { w with pending := rest } t x s hx)

lemma drainPending_inserts (fuel : Nat) (w : WheelM) (t : TimerNodeM)
    (hmem : some t ∈ w.pending.take fuel) (hc : t.canceled = false) :
    ({ t with rotations := ticksOf w.tickInterval t.timeout / w.slots } : TimerNodeM) ∈
      (drainPending fuel w).wheel
        ((w.currentSlot + ticksOf w.tickInterval t.timeout) % w.slots) := by
  induction fuel generalizing w with
  | zero => simp at hmem
  | succ n ih =>
      rcases hp : w.pending with _ | ⟨t?, rest⟩
      · rw [hp] at hmem; simp at hmem
      · rw [hp] at hmem
        rw [List.take_succ_cons] at hmem
        rcases List.mem_cons.mp hmem with hhd | htl
        · have ht? : t? = some t := hhd.symm
          subst ht?
          have hstep : drainPending (n + 1) w =
              drainPending n (insertPending { w with pending := rest } t) := by
            simp [drainPending, hp, hc]
          rw [hstep]
          apply drainPending_wheel_mono
          simp only [insertPending, ticksOf, max1_eq]
          simp
        · rcases t? with _ | u
          · have hstep : drainPending (n + 1) w =
                drainPending n { w with pending := rest } := by
              simp [drainPending, hp]
            rw [hstep]
            simpa using ih { w with pending := rest } htl
          · by_cases hcu : u.canceled
            · have hstep : drainPending (n + 1) w =
                  drainPending n { w with pending := rest } := by
                simp [drainPending, hp, hcu]
              rw [hstep]
              simpa using ih { w with pending := rest } htl
            · have hstep : drainPending (n + 1) w =
                  drainPending n (insertPending { w with pending := rest } u) := by
                simp [drainPending, hp, hcu]
              rw [hstep]
              have := ih (insertPending { w with pending := rest } u)
                (by simpa [insertPending] using htl)
              simpa [insertPending] using this

/-- C1: a call to yield() or block_yield() with a non-null thread-local
current fiber sets that fiber's state to SUSPENDED (yield) or BLOCKED
(block_yield) unless it is DONE, in which case it stays DONE; in both
cases the fiber's parent field is cleared, the former parent becomes the
thread-local current fiber, the parent's state becomes RUNNING, and
execution switches into the parent's context.  Stated for a current fiber
whose parent pointer is non-null and distinct from itself, the
configuration every resume establishes; with a null parent the source
dereferences null. -/
theorem C1_yield_and_block_yield (w : ThreadWorld) (cid pid : Nat)
    (hcur : w.current = some cid)
    (hpar : (w.fibers cid).parent = some pid)
    (hne : pid ≠ cid) :
    (Fiber.yield w).map
        (fun v => ((v.fibers cid).state, (v.fibers cid).parent, v.current,
                   (v.fibers pid).state, v.switchedTo))
      = some ((if (w.fibers cid).state = FiberState.DONE then FiberState.DONE
               else FiberState.SUSPENDED), none, some pid,
              FiberState.RUNNING, some pid) ∧
    (Fiber.block_yield w).map
        (fun v => ((v.fibers cid).state, (v.fibers cid).parent, v.current,
                   (v.fibers pid).state, v.switchedTo))
      = some ((if (w.fibers cid).state = FiberState.DONE then FiberState.DONE
               else FiberState.BLOCKED), none, some pid,
              FiberState.RUNNING, some pid) := by
  have hne2 : cid ≠ pid := hne.symm
  by_cases hd : (w.fibers cid).state = FiberState.DONE <;>
    simp [Fiber.yield, Fiber.block_yield, yield_internal, hcur, hpar, hd,
      updF, hne, hne2]

/-- Witness for C1 on the concrete world `c1World`. -/
theorem C1_witness :
    (Fiber.yield c1World).map
        (fun v => ((v.fibers 1).state, (v.fibers 1).parent, v.current,
                   (v.fibers 0).state, v.switchedTo))
      = some ((if (c1World.fibers 1).state = FiberState.DONE then FiberState.DONE
               else FiberState.SUSPENDED), none, some 0,
              FiberState.RUNNING, some 0) ∧
    (Fiber.block_yield c1World).map
        (fun v => ((v.fibers 1).state, (v.fibers 1).parent, v.current,
                   (v.fibers 0).state, v.switchedTo))
      = some ((if (c1World.fibers 1).state = FiberState.DONE then FiberState.DONE
               else FiberState.BLOCKED), none, some 0,
              FiberState.RUNNING, some 0) :=
  C1_yield_and_block_yield c1World 1 0 rfl rfl (by decide)

/-- C2: after processTask pops a fiber and resume() returns, the fiber is
pushed back onto this consumer's local run queue exactly when its state
is SUSPENDED; a fiber that returns BLOCKED or DONE is not reinserted.
`resumeRun` abstracts the effect of the resume on the popped fiber. -/
theorem C2_processTask_reinsert (myId : Nat) (resumeRun : FiberRec → FiberRec)
    (task : FiberRec) (rest : List FiberRec)
    (hid : task.consumerId = none ∨ task.consumerId = some myId) :
    processTask myId resumeRun (task :: rest) =
      some (if (resumeRun { task with consumerId := some myId }).state =
               FiberState.SUSPENDED
            then rest ++ [resumeRun { task with consumerId := some myId }]
            else rest) ∧
    (processTask myId resumeRun (task :: rest) =
        some (rest ++ [resumeRun { task with consumerId := some myId }]) ↔
      (resumeRun { task with consumerId := some myId }).state =
        FiberState.SUSPENDED) := by
  have heq : processTask myId resumeRun (task :: rest) =
      some (if (resumeRun { task with consumerId := some myId }).state =
               FiberState.SUSPENDED
            then rest ++ [resumeRun { task with consumerId := some myId }]
            else rest) := by
    rcases hid with h | h <;> simp [processTask, h, apply_ite]
  refine ⟨heq, ?_⟩
  rw [heq]
  constructor
  · intro h
    by_contra hs
    rw [if_neg hs] at h
    have hlen := congrArg (fun o => (o.getD []).length) h
    simp at hlen
  · intro h
    rw [if_pos h]

/-- Witness for C2: a fiber that returns BLOCKED from resume is dropped
from the queue. -/
theorem C2_witness :
    processTask 0 (fun r => { r with state := FiberState.BLOCKED })
        [{ state := FiberState.SUSPENDED, parent := none, consumerId := none }] =
      some (if ((fun (r : FiberRec) => { r with state := FiberState.BLOCKED })
                 { state := FiberState.SUSPENDED, parent := none,
                   consumerId := some 0 }).state = FiberState.SUSPENDED
            then [] ++ [(fun (r : FiberRec) => { r with state := FiberState.BLOCKED })
                 { state := FiberState.SUSPENDED, parent := none,
                   consumerId := some 0 }]
            else []) ∧
    (processTask 0 (fun r => { r with state := FiberState.BLOCKED })
        [{ state := FiberState.SUSPENDED, parent := none, consumerId := none }] =
      some ([] ++ [(fun (r : FiberRec) => { r with state := FiberState.BLOCKED })
                 { state := FiberState.SUSPENDED, parent := none,
                   consumerId := some 0 }]) ↔
      ((fun (r : FiberRec) => { r with state := FiberState.BLOCKED })
                 { state := FiberState.SUSPENDED, parent := none,
                   consumerId := some 0 }).state = FiberState.SUSPENDED) :=
  C2_processTask_reinsert 0 (fun r => { r with state := FiberState.BLOCKED })
    { state := FiberState.SUSPENDED, parent := none, consumerId := none } []
    (Or.inl rfl)

/-- C3: resuming a DONE fiber logs a warning and returns without
switching contexts, leaving the fiber's state, its parent pointer and the
thread-local current fiber unchanged. -/
theorem C3_resume_done_noop (w : ThreadWorld) (fid : Nat)
    (h : (w.fibers fid).state = FiberState.DONE) :
    Fiber.resume w fid = (w, true) ∧
    ((Fiber.resume w fid).1.fibers fid).state = (w.fibers fid).state ∧
    ((Fiber.resume w fid).1.fibers fid).parent = (w.fibers fid).parent ∧
    (Fiber.resume w fid).1.current = w.current ∧
    (Fiber.resume w fid).1.switchedTo = w.switchedTo := by
  simp [Fiber.resume, h]

/-- Witness for C3 on the concrete world `c3World`. -/
theorem C3_witness :
    Fiber.resume c3World 2 = (c3World, true) ∧
    ((Fiber.resume c3World 2).1.fibers 2).state = (c3World.fibers 2).state ∧
    ((Fiber.resume c3World 2).1.fibers 2).parent = (c3World.fibers 2).parent ∧
    (Fiber.resume c3World 2).1.current = c3World.current ∧
    (Fiber.resume c3World 2).1.switchedTo = c3World.switchedTo :=
  C3_resume_done_noop c3World 2 rfl

/-- C4 counterexample: the claim says a timeout of ms ≥ 0 arms the timer,
but the source arms it only for `timeout_ms > 0`; at the concrete input
`timeout_ms = 0` (which satisfies ms ≥ 0) no timer is armed. -/
theorem C4_counterexample : (0 : Int) ≥ 0 ∧ armsTimerFor 0 = false := by
  decide

/-- C4 amended: a strictly positive timeout arms the one-shot timer,
whose callback sets the timeout flag and atomically wins the shared
wake-once flag, waking the fd exactly when it won; a timeout of zero or a
negative timeout means infinite wait with no timer armed. -/
theorem C4_amended_timer_arming (ms : Int) (s : IOWakeState) :
    (armsTimerFor ms = true ↔ 0 < ms) ∧
    (ioTimerCallback s).1.timeout_state = true ∧
    (ioTimerCallback s).1.woken_state = true ∧
    ((ioTimerCallback s).2 = true ↔ s.woken_state = false) := by
  refine ⟨?_, rfl, rfl, ?_⟩
  · simp [armsTimerFor]
  · simp [ioTimerCallback]

/-- C5 counterexample: in the legal interleaving where the armed timer
stores its timeout flag and is then overtaken — a notify wakes the waiter
before the timer's exchange — wait_for returns false although the wake
that resumed the waiter came from notify. -/
theorem C5_counterexample :
    progLe TimerProgress.storedTimeout TimerProgress.storedTimeout = true ∧
    (wait_for_run 5 WakeSource.notify TimerProgress.storedTimeout
        TimerProgress.storedTimeout).1 = false := by
  decide

/-- C5 amended: wait_for returns the negation of the timeout flag as read
after the wake: it returns false whenever the wake came from the armed
timer, and when the wake came from notify it returns true exactly when
the timer had not yet fired by the post-wake re-check (so a timer firing
concurrently with a notify wake yields false); for a timeout of zero or
less it returns false immediately without arming a timer. -/
theorem C5_amended_wait_for (ms : Int) (src : WakeSource)
    (p1 p2 : TimerProgress)
    (hleg : progLe p1 p2 = true)
    (hsrc : src = WakeSource.timerWake → p1 = TimerProgress.completed)
    (hms : 0 < ms) :
    (src = WakeSource.timerWake → (wait_for_run ms src p1 p2).1 = false) ∧
    ((wait_for_run ms src p1 p2).1 = true ↔ p2 = TimerProgress.notFired) ∧
    (∀ ms2 : Int, ms2 ≤ 0 → wait_for_run ms2 src p1 p2 = (false, false)) := by
  have hnot : ¬ ms ≤ 0 := by omega
  refine ⟨?_, ?_, ?_⟩
  · intro h
    have h1 := hsrc h
    subst h1
    have h2 : p2 = TimerProgress.completed := by
      cases p2 <;> simp_all [progLe]
    subst h2
    simp [wait_for_run, hnot]
  · cases p2 <;> simp [wait_for_run, hnot]
  · intro ms2 h2
    simp [wait_for_run, h2]

/-- Witness for C5 amended: a wake coming from the timer itself. -/
theorem C5_witness :
    (WakeSource.timerWake = WakeSource.timerWake →
      (wait_for_run 5 WakeSource.timerWake TimerProgress.completed
          TimerProgress.completed).1 = false) ∧
    ((wait_for_run 5 WakeSource.timerWake TimerProgress.completed
          TimerProgress.completed).1 = true ↔
      TimerProgress.completed = TimerProgress.notFired) ∧
    (∀ ms2 : Int, ms2 ≤ 0 →
      wait_for_run ms2 WakeSource.timerWake TimerProgress.completed
          TimerProgress.completed = (false, false)) :=
  C5_amended_wait_for 5 WakeSource.timerWake TimerProgress.completed
    TimerProgress.completed (by decide) (fun _ => rfl) (by decide)

/-- C6: a fiber that carries a consumer-id is routed by scheduleImmediate
to exactly the consumer whose id equals that consumer-id, and the
consumer-side schedule of any running consumer with a different id trips
the cross-thread assertion rather than enqueueing it. -/
theorem C6_sticky_routing (cs : List ConsumerModel) (fiber : FiberRec)
    (hint : Int) (cid : Nat) (c : ConsumerModel)
    (hfid : fiber.consumerId = some cid) (hrun : c.running = true) :
    scheduleImmediate cs fiber hint = some cid ∧
    (c.id = cid → consumerSchedule c fiber =
      some { c with queue := c.queue ++ [fiber] }) ∧
    (c.id ≠ cid → consumerSchedule c fiber = none) := by
  refine ⟨by simp [scheduleImmediate, hfid], ?_, ?_⟩
  · intro h
    simp [consumerSchedule, hrun, hfid, h]
  · intro h
    have : ¬ cid = c.id := fun hh => h hh.symm
    simp [consumerSchedule, hrun, hfid, this]

/-- Witness for C6 with a concrete fiber stuck to consumer 2. -/
theorem C6_witness :
    scheduleImmediate
        [{ id := 1, queueSize := 0, queue := [], running := true }]
        { state := FiberState.SUSPENDED, parent := none, consumerId := some 2 }
        (-1) = some 2 ∧
    (({ id := 1, queueSize := 0, queue := [], running := true } : ConsumerModel).id = 2 →
      consumerSchedule { id := 1, queueSize := 0, queue := [], running := true }
          { state := FiberState.SUSPENDED, parent := none, consumerId := some 2 } =
        some { id := 1, queueSize := 0,
               queue := [] ++ [{ state := FiberState.SUSPENDED, parent := none,
                                 consumerId := some 2 }], running := true }) ∧
    (({ id := 1, queueSize := 0, queue := [], running := true } : ConsumerModel).id ≠ 2 →
      consumerSchedule { id := 1, queueSize := 0, queue := [], running := true }
          { state := FiberState.SUSPENDED, parent := none, consumerId := some 2 } =
        none) :=
  C6_sticky_routing
    [{ id := 1, queueSize := 0, queue := [], running := true }]
    { state := FiberState.SUSPENDED, parent := none, consumerId := some 2 }
    (-1) 2 { id := 1, queueSize := 0, queue := [], running := true } rfl rfl

/-- C7: addTimer stages the new node on the pending queue (with rotations
`ticks / S` for `ticks = max(1, ms / T)`), and the tick thread's drain
inserts each non-cancelled drained node into slot
`(current_slot + ticks) mod S` with rotations `ticks / S`, draining at
most 100 pending additions per call. -/
theorem C7_addTimer_and_drain (w : WheelM) (ms : Nat) (t : TimerNodeM)
    (hrun : w.running = true)
    (hmem : some t ∈ w.pending.take 100) (hcanc : t.canceled = false) :
    addTimer w ms =
      ({ w with pending := w.pending ++
          [some { timeout := ms,
                  rotations := ticksOf w.tickInterval ms / w.slots,
                  canceled := false }] },
        some { timeout := ms,
               rotations := ticksOf w.tickInterval ms / w.slots,
               canceled := false }) ∧
    (processPendingTimers w).pending = w.pending.drop 100 ∧
    ({ t with rotations := ticksOf w.tickInterval t.timeout / w.slots } : TimerNodeM) ∈
      (processPendingTimers w).wheel
        ((w.currentSlot + ticksOf w.tickInterval t.timeout) % w.slots) := by
  refine ⟨?_, drainPending_pending 100 w, drainPending_inserts 100 w t hmem hcanc⟩
  simp [addTimer, hrun, ticksOf, max1_eq]

/-- Witness for C7 on the concrete wheel `c7Wheel`: a 250 ms timer at
tick 100 ms on 8 slots lands in slot (3 + 2) mod 8 = 5 with 0 rotations. -/
theorem C7_witness :
    addTimer c7Wheel 250 =
      ({ c7Wheel with pending := c7Wheel.pending ++
          [some { timeout := 250,
                  rotations := ticksOf c7Wheel.tickInterval 250 / c7Wheel.slots,
                  canceled := false }] },
        some { timeout := 250,
               rotations := ticksOf c7Wheel.tickInterval 250 / c7Wheel.slots,
               canceled := false }) ∧
    (processPendingTimers c7Wheel).pending = c7Wheel.pending.drop 100 ∧
    ({ timeout := 250, rotations := 0, canceled := false } : TimerNodeM) ∈
      (processPendingTimers c7Wheel).wheel
        ((c7Wheel.currentSlot +
          ticksOf c7Wheel.tickInterval 250) % c7Wheel.slots) :=
  C7_addTimer_and_drain c7Wheel 250
    { timeout := 250, rotations := 0, canceled := false }
    rfl (by decide) rfl

/-- C8 counterexample: the deallocate path of the free list installs a
tagged pointer carrying the observed pool head tag unchanged.  At the
concrete pool head with tag 5, the installed tag is 5, not
(5 + 1) mod 2^16 = 6, so a node's tag does not advance when it is pushed
to the free list. -/
theorem C8_counterexample :
    (freelist_deallocate_newPool { ptr := some 3, tag := 5 } 7).tag = 5 ∧
    TPtr.get_next_tag { ptr := some 3, tag := 5 } = 6 ∧ (5 : Nat) ≠ 6 := by
  decide

/-- C8 amended: every successful CAS in the FIFO's push_back and
pop_front, and the free list's allocate CAS, installs a tagged pointer
whose tag is (tag of the expected value + 1) mod 2^16; the free list's
deallocate CAS installs the expected pool head's tag unchanged, so a
node's tag advances when it is popped (allocated) from the free list,
not when it is pushed. -/
theorem C8_amended_tag_advance (p q : TPtr) (np : Option Nat) (n : Nat) :
    (push_helpAdvanceTail p np).tag = (p.tag + 1) % 65536 ∧
    (push_linkNewNode q n).tag = (q.tag + 1) % 65536 ∧
    (push_swingTail p n).tag = (p.tag + 1) % 65536 ∧
    (pop_helpAdvanceTail p np).tag = (p.tag + 1) % 65536 ∧
    (pop_advanceHead p np).tag = (p.tag + 1) % 65536 ∧
    (freelist_allocate_newPool p np).tag = (p.tag + 1) % 65536 ∧
    (freelist_deallocate_newPool p n).tag = p.tag := by
  exact ⟨rfl, rfl, rfl, rfl, rfl, rfl, rfl⟩

/-- C9 counterexample: the context initialization Fiber::Init actually
performs (AsmContext) allocates the fiber stack with malloc — not an
anonymous mapping — and prepares no inaccessible guard page: at the
default 256 KiB stack size the prepared region is heap-allocated with
zero guard bytes. -/
theorem C9_counterexample :
    (fiberInitStack 262144).kind = AllocKind.mallocHeap ∧
    (fiberInitStack 262144).guardBytes = 0 := by
  decide

/-- C9 amended: the UContext variant prepares a page-rounded stack by
anonymous mapping with one inaccessible (PROT_NONE) page below the usable
region, so overflow faults; but Fiber::Init builds its context with
AsmContext, whose initialize allocates the stack with malloc and prepares
no guard page. -/
theorem C9_amended_guard_pages (page st_sz : Nat) (hpage : 0 < page) :
    (uContextPrepareStack page st_sz).kind = AllocKind.mmapAnonymous ∧
    (uContextPrepareStack page st_sz).guardBytes = page ∧
    (uContextPrepareStack page st_sz).usableOff = page ∧
    page ∣ (uContextPrepareStack page st_sz).usableSize ∧
    st_sz ≤ (uContextPrepareStack page st_sz).usableSize ∧
    (uContextPrepareStack page st_sz).totalSize =
      (uContextPrepareStack page st_sz).usableSize + page ∧
    (fiberInitStack st_sz).kind = AllocKind.mallocHeap ∧
    (fiberInitStack st_sz).guardBytes = 0 := by
  refine ⟨rfl, rfl, rfl, ?_, ?_, rfl, rfl, rfl⟩
  · exact Nat.dvd_sub_mod (st_sz + page - 1)
  · have hm : (st_sz + page - 1) % page < page :=
      Nat.mod_lt _ hpage
    simp only [uContextPrepareStack, align_to_page]
    omega

/-- Witness for C9 amended at page size 4096 and a 250000-byte request. -/
theorem C9_witness :
    (uContextPrepareStack 4096 250000).kind = AllocKind.mmapAnonymous ∧
    (uContextPrepareStack 4096 250000).guardBytes = 4096 ∧
    (uContextPrepareStack 4096 250000).usableOff = 4096 ∧
    4096 ∣ (uContextPrepareStack 4096 250000).usableSize ∧
    250000 ≤ (uContextPrepareStack 4096 250000).usableSize ∧
    (uContextPrepareStack 4096 250000).totalSize =
      (uContextPrepareStack 4096 250000).usableSize + 4096 ∧
    (fiberInitStack 250000).kind = AllocKind.mallocHeap ∧
    (fiberInitStack 250000).guardBytes = 0 :=
  C9_amended_guard_pages 4096 250000 (by decide)

/-- C10: a Channel constructed with requested capacity 0 has internal
ring capacity 2 and reports capacity() = 1, and try_send on the empty
just-constructed channel succeeds with no receiver; for any requested
capacity k ≥ 1, capacity() returns k. -/
theorem C10_channel_capacity (k v : Nat) (hk : 1 ≤ k) :
    (channelMk 0).internalCap = 2 ∧
    channelCapacity (channelMk 0) = 1 ∧
    (try_send (channelMk 0) v).2 = true ∧
    channelCapacity (channelMk k) = k := by
  refine ⟨rfl, rfl, ?_, ?_⟩
  · simp [try_send, try_push_lockfree, channelMk, channelNextIndex]
  · rcases k with _ | m
    · omega
    · simp [channelCapacity, channelMk]

/-- Witness for C10 at k = 3, v = 9. -/
theorem C10_witness :
    (channelMk 0).internalCap = 2 ∧
    channelCapacity (channelMk 0) = 1 ∧
    (try_send (channelMk 0) 9).2 = true ∧
    channelCapacity (channelMk 3) = 3 :=
  C10_channel_capacity 3 9 (by decide)

end FiberLib
